import Mathlib

/-!
Shallow embedding of the `exprcalc` expression evaluator (`parser.go`).

The Go program evaluates a small boolean/comparison expression language:
a tokenizer (regex-alternation lexer), a grammar parser building the
`Expression`/`OrCondition`/`ConditionOperand`/`Compare`/`Term`/`Value`
AST, and a tree-walking evaluator with coercion between host values and
the internal tagged value set.

Modelling conventions:
* Go `interface{}` values flowing through the evaluator are the closed
  sum `IVal` (internal), `HostVal` (what a `Gettable.GetByName` host can
  return), and `ExtVal` (what top-level `Eval` returns).  Go `float64`
  payloads are modelled as `Rat` (exact; the float-rounding behaviour of
  the host is outside the model, ordering/equality of representable
  values agree with the rational order).
* Go `error` values are the structured `EvalErr`; each constructor
  corresponds to one `lexer.Errorf`/`fmt.Errorf` site in `parser.go`.
  `wrapErr` models `lexer.Errorf(pos, "%v", err)` re-wrapping a nested
  error with a node position.
* Opaque host values (the pass-through default of `castToInternal`) are
  `foreign tag` with a numeric tag standing for the host value identity.
-/

namespace Exprcalc

/-- Source position (`lexer.Position`): line and column. -/
structure Pos where
  line : Nat
  column : Nat
deriving DecidableEq, Repr

/-- Evaluation errors; one constructor per error-creation site in `parser.go`. -/
inductive EvalErr where
  /-- `lexer.Errorf(c.Pos, ...)` type errors raised in `Compare.Eval`. -/
  | typeErr (pos : Pos) (msg : String)
  /-- `lexer.Errorf(t.Pos, "Identifier %v on nil object", ...)` in `Term.Eval`. -/
  | contextErr (pos : Pos) (name : String)
  /-- `lexer.Errorf(t.Pos, "%v", err)` wrapping a `GetByName` failure in `Term.Eval`. -/
  | identErr (pos : Pos) (cause : String)
  /-- `fmt.Errorf` ("lhs must be boolean" / "rhs must be boolean") in `evaluateBooleans`. -/
  | plainErr (msg : String)
  /-- `lexer.Errorf(pos, "%v", err)` re-wrapping a nested error in the OR/AND fold loops. -/
  | wrapErr (pos : Pos) (inner : EvalErr)
deriving DecidableEq, Repr

/-- Internal tagged value: Go `float64`, `string`, `Boolean`, `nil`, or an
opaque host value passed through `castToInternal` unchanged. -/
inductive IVal where
  | num (q : Rat)
  | str (s : String)
  | bool (b : Bool)
  | null
  | foreign (tag : Nat)
deriving DecidableEq, Repr

/-- Variant tag of an internal value (the Go type switch discriminator). -/
inductive VariantTag where
  | vNum | vStr | vBool | vNull | vForeign
deriving DecidableEq, Repr

/-- Which `interface{}` dynamic type an internal value has. -/
def IVal.variant : IVal → VariantTag
  | .num _ => .vNum
  | .str _ => .vStr
  | .bool _ => .vBool
  | .null => .vNull
  | .foreign _ => .vForeign

/-- Host values a `Gettable.GetByName` implementation can return: every case
of the `castToInternal` type switch, plus `string`/`float64`/`nil`/opaque
values that fall through its default branch. -/
inductive HostVal where
  | hBool (b : Bool)
  | hInt (i : Int)
  | hInt8 (i : Int)
  | hInt16 (i : Int)
  | hInt32 (i : Int)
  | hInt64 (i : Int)
  | hUInt (n : Nat)
  | hUInt8 (n : Nat)
  | hUInt16 (n : Nat)
  | hUInt32 (n : Nat)
  | hUInt64 (n : Nat)
  | hFloat32 (q : Rat)
  | hFloat64 (q : Rat)
  | hString (s : String)
  | hNil
  | hForeign (tag : Nat)
deriving DecidableEq, Repr

/-- External result values of top-level `Eval`/`EvalParsed`
(after `castToExternal`): `bool`, `float64`, `string`, `nil`, or an opaque
pass-through value. -/
inductive ExtVal where
  | eBool (b : Bool)
  | eNum (q : Rat)
  | eStr (s : String)
  | eNull
  | eForeign (tag : Nat)
deriving DecidableEq, Repr

/-- `castToInternal` (`parser.go`): booleans become the internal `Boolean`,
every integer width and `float32` are converted to `float64` (the internal
Number), and everything else falls through the default branch unchanged —
for `float64` and `string` the unchanged value already is the internal
Number/Text representation, `nil` stays "no value", anything else stays
opaque. -/
def castToInternal : HostVal → IVal
  | .hBool b => .bool b
  | .hInt i => .num (i : Rat)
  | .hInt8 i => .num (i : Rat)
  | .hInt16 i => .num (i : Rat)
  | .hInt32 i => .num (i : Rat)
  | .hInt64 i => .num (i : Rat)
  | .hUInt n => .num (n : Rat)
  | .hUInt8 n => .num (n : Rat)
  | .hUInt16 n => .num (n : Rat)
  | .hUInt32 n => .num (n : Rat)
  | .hUInt64 n => .num (n : Rat)
  | .hFloat32 q => .num q
  | .hFloat64 q => .num q
  | .hString s => .str s
  | .hNil => .null
  | .hForeign tag => .foreign tag

/-- `castToExternal` (`parser.go`): the internal `Boolean` unwraps to a plain
`bool`; every other value passes through unchanged (`float64`, `string`,
`nil`, opaque). -/
def castToExternal : IVal → ExtVal
  | .bool b => .eBool b
  | .num q => .eNum q
  | .str s => .eStr s
  | .null => .eNull
  | .foreign tag => .eForeign tag

/-- Evaluation context (`Context` struct): the optional `Gettable` object.
`none` models a nil `Object`; `some f` models a host resolver whose
`GetByName` either errors (with a cause message) or returns a host value. -/
structure Context where
  object : Option (String → Except String HostVal)

/-- AST of the expression language, mirroring the Go node structs (grammar
annotations in `parser.go`). `Term`'s three mutually exclusive optional
pointers are modelled as a sum, as are `Value`'s. -/
inductive Value where
  | number (pos : Pos) (n : Rat)
  | str (pos : Pos) (s : String)
  | boolean (pos : Pos) (b : Bool)
deriving DecidableEq, Repr

mutual

inductive Expression where
  | mk (pos : Pos) (orList : List OrCondition)

inductive OrCondition where
  | mk (pos : Pos) (andList : List ConditionOperand)

inductive ConditionOperand where
  | mk (pos : Pos) (term : Term) (compare : Option Compare)

inductive Compare where
  | mk (pos : Pos) (operator : String) (term : Term)

inductive Term where
  | value (pos : Pos) (v : Value)
  | ident (pos : Pos) (name : String)
  | subExpr (pos : Pos) (e : Expression)

end

/-- `Value.Eval`: a literal evaluates to the corresponding tagged value
(never errors). -/
def Value.eval : Value → IVal
  | .number _ n => .num n
  | .str _ s => .str s
  | .boolean _ b => .bool b

/-- The non-evaluating tail of `evaluateBooleans`: after the right operand
has been evaluated, assert the running `lhs` is a `Boolean` (else
"lhs must be boolean"), then the fresh `rhs` (else "rhs must be boolean"). -/
def asBooleans (lhs rhs : IVal) : Except EvalErr (Bool × Bool) :=
  match lhs with
  | .bool lb =>
    match rhs with
    | .bool rb => .ok (lb, rb)
    | _ => .error (.plainErr "rhs must be boolean")
  | _ => .error (.plainErr "lhs must be boolean")

/-- One iteration of the `for _, or := range e.Or[1:]` loop body of
`Expression.Eval`: `res` is the just-evaluated child (the first half of
`evaluateBooleans`), whose error — like the boolean type check's — is
wrapped with the Expression's position; on success, break with the
pre-fold `lhs` if it is already `true`, else continue (`k`) with the fold
`lhs = lhsBool || rhsBool`. -/
def orStep (pos : Pos) (lhs : IVal) (res : Except EvalErr IVal)
    (k : IVal → Except EvalErr IVal) : Except EvalErr IVal :=
  match res with
  | .error e => .error (.wrapErr pos e)
  | .ok rhs =>
    match asBooleans lhs rhs with
    | .error e => .error (.wrapErr pos e)
    | .ok (lb, rb) => if lb then .ok lhs else k (.bool (lb || rb))

/-- One iteration of the `for _, and := range o.And[1:]` loop body of
`OrCondition.Eval`: as `orStep` with `true`/`false` swapped. -/
def andStep (pos : Pos) (lhs : IVal) (res : Except EvalErr IVal)
    (k : IVal → Except EvalErr IVal) : Except EvalErr IVal :=
  match res with
  | .error e => .error (.wrapErr pos e)
  | .ok rhs =>
    match asBooleans lhs rhs with
    | .error e => .error (.wrapErr pos e)
    | .ok (lb, rb) => if !lb then .ok lhs else k (.bool (lb && rb))

/-- The type-switch body of `Compare.Eval` on the already-evaluated left
and right operand values: numbers and strings support all six operators
with their native ordering, booleans only `==`/`!=`, and any other left
operand (nil or opaque included) is a type error; all errors carry the
Compare node's position. -/
def compareValues (pos : Pos) (op : String) (lhs rhs : IVal) : Except EvalErr IVal :=
  match lhs with
  | .num l =>
    match rhs with
    | .num r =>
      match op with
      | "==" => .ok (.bool (decide (l = r)))
      | "!=" => .ok (.bool (decide (l ≠ r)))
      | "<" => .ok (.bool (decide (l < r)))
      | ">" => .ok (.bool (decide (l > r)))
      | "<=" => .ok (.bool (decide (l ≤ r)))
      | ">=" => .ok (.bool (decide (l ≥ r)))
      | _ => .error (.typeErr pos ("unsupported number comparison operator " ++ op))
    | _ => .error (.typeErr pos ("rhs of " ++ op ++ " must be a number"))
  | .str l =>
    match rhs with
    | .str r =>
      match op with
      | "==" => .ok (.bool (decide (l = r)))
      | "!=" => .ok (.bool (decide (l ≠ r)))
      | "<" => .ok (.bool (decide (l < r)))
      | ">" => .ok (.bool (decide (l > r)))
      | "<=" => .ok (.bool (decide (l ≤ r)))
      | ">=" => .ok (.bool (decide (l ≥ r)))
      | _ => .error (.typeErr pos ("unsupported string comparison operator " ++ op))
    | _ => .error (.typeErr pos ("rhs of " ++ op ++ " must be a string"))
  | .bool l =>
    match rhs with
    | .bool r =>
      match op with
      | "==" => .ok (.bool (decide (l = r)))
      | "!=" => .ok (.bool (decide (l ≠ r)))
      | _ => .error (.typeErr pos ("unsupported boolean comparison operator " ++ op))
    | _ => .error (.typeErr pos ("rhs of " ++ op ++ " must be boolean"))
  | _ => .error (.typeErr pos ("lhs of " ++ op ++ " must be a number, string or boolean"))

/-- The identifier case of `Term.Eval`: a nil context object is the
"Identifier ... on nil object" error at the Term's position; otherwise
`GetByName` runs, its failure is wrapped at the Term's position, and its
value goes through `castToInternal`. -/
def resolveIdent (ctx : Context) (pos : Pos) (name : String) : Except EvalErr IVal :=
  match ctx.object with
  | none => .error (.contextErr pos name)
  | some getByName =>
    match getByName name with
    | .error cause => .error (.identErr pos cause)
    | .ok v => .ok (castToInternal v)

mutual

/-- `Expression.Eval`: empty OR-list gives `nil`; any error of the first
child propagates unchanged (the `bind`); a single child passes through;
with exactly two children a boolean-`true` first child short-circuits;
otherwise the fold loop over the remaining children runs. -/
def Expression.eval (ctx : Context) : Expression → Except EvalErr IVal
  | .mk pos orList =>
    match orList with
    | [] => .ok .null
    | c0 :: rest =>
      (OrCondition.eval ctx c0).bind fun lhs =>
        match rest with
        | [] => .ok lhs
        | [c1] =>
          if lhs = IVal.bool true then .ok lhs
          else orLoop ctx pos lhs [c1]
        | c1 :: c2 :: cs => orLoop ctx pos lhs (c1 :: c2 :: cs)

/-- The `for _, or := range e.Or[1:]` loop of `Expression.Eval`: each
iteration is an `orStep` on the just-evaluated child, continuing on the
tail. -/
def orLoop (ctx : Context) (pos : Pos) (lhs : IVal) :
    List OrCondition → Except EvalErr IVal
  | [] => .ok lhs
  | c :: rest =>
    orStep pos lhs (OrCondition.eval ctx c) (fun nlhs => orLoop ctx pos nlhs rest)

/-- `OrCondition.Eval`: the AND reduction, symmetric to `Expression.Eval`
with `true`/`false` swapped. -/
def OrCondition.eval (ctx : Context) : OrCondition → Except EvalErr IVal
  | .mk pos andList =>
    match andList with
    | [] => .ok .null
    | c0 :: rest =>
      (ConditionOperand.eval ctx c0).bind fun lhs =>
        match rest with
        | [] => .ok lhs
        | [c1] =>
          if lhs = IVal.bool false then .ok lhs
          else andLoop ctx pos lhs [c1]
        | c1 :: c2 :: cs => andLoop ctx pos lhs (c1 :: c2 :: cs)

/-- The `for _, and := range o.And[1:]` loop of `OrCondition.Eval`. -/
def andLoop (ctx : Context) (pos : Pos) (lhs : IVal) :
    List ConditionOperand → Except EvalErr IVal
  | [] => .ok lhs
  | c :: rest =>
    andStep pos lhs (ConditionOperand.eval ctx c) (fun nlhs => andLoop ctx pos nlhs rest)

/-- `ConditionOperand.Eval`: evaluate the Term (errors propagate
unchanged); if no Compare is attached, return the value unchanged, else
delegate to `Compare.Eval`. -/
def ConditionOperand.eval (ctx : Context) : ConditionOperand → Except EvalErr IVal
  | .mk _ term cmp =>
    (Term.eval ctx term).bind fun lhs =>
      match cmp with
      | none => .ok lhs
      | some c => Compare.eval ctx lhs c

/-- `Compare.Eval`: evaluate the right-hand Term (errors propagate
unchanged), then dispatch on the left value's dynamic type
(`compareValues`). -/
def Compare.eval (ctx : Context) (lhs : IVal) : Compare → Except EvalErr IVal
  | .mk pos op term =>
    (Term.eval ctx term).bind fun rhs => compareValues pos op lhs rhs

/-- `Term.Eval`: a literal evaluates itself; an identifier requires a
non-nil context object (else the "on nil object" error), resolves through
`GetByName` (failures wrapped at the Term's position), and the resolved
host value goes through `castToInternal`; a subexpression recurses. -/
def Term.eval (ctx : Context) : Term → Except EvalErr IVal
  | .value _ v => .ok (Value.eval v)
  | .ident pos name => resolveIdent ctx pos name
  | .subExpr _ e => Expression.eval ctx e

end

/-!
Tokenizer (`myLexer` in `parser.go`): the regex
`(\s+)|(?P<LogicOp>(?i)AND|OR)|(?P<Boolean>(?i)true|false)|(?P<Ident>[a-zA-Z_][a-zA-Z0-9_]*)|(?P<Number>[-+]?\d*\.?\d+([eE][-+]?\d+)?)|(?P<String>...)|(?P<CompareOp>!=|<=|>=|==|[()<>])`
applied repeatedly at the current position with leftmost-first alternation:
the first alternative (in source order) that matches wins, each matched
greedily. The unnamed whitespace group produces no token.
-/

/-- The characters of Go regex `\s`: `[\t\n\f\r ]`. -/
def isSpaceChar (c : Char) : Bool :=
  c == ' ' || c == '\t' || c == '\n' || c == '\x0c' || c == '\r'

/-- Match a fixed pattern (given in lowercase) case-insensitively at the head
of the input, returning the raw matched characters and the rest. -/
def matchCI : List Char → List Char → Option (List Char × List Char)
  | [], s => some ([], s)
  | _ :: _, [] => none
  | p :: ps, c :: cs =>
    if c.toLower = p then
      match matchCI ps cs with
      | some (m, rest) => some (c :: m, rest)
      | none => none
    else none

/-- `(?i)AND|OR`: try `AND` first, then `OR` (leftmost-first alternation). -/
def matchLogicOp (s : List Char) : Option (List Char × List Char) :=
  match matchCI ['a', 'n', 'd'] s with
  | some r => some r
  | none => matchCI ['o', 'r'] s

/-- `(?i)true|false`: try `true` first, then `false`. -/
def matchBooleanLit (s : List Char) : Option (List Char × List Char) :=
  match matchCI ['t', 'r', 'u', 'e'] s with
  | some r => some r
  | none => matchCI ['f', 'a', 'l', 's', 'e'] s

/-- First character of `[a-zA-Z_][a-zA-Z0-9_]*`. -/
def isIdentStart (c : Char) : Bool := c.isAlpha || c == '_'

/-- Continuation characters of the identifier pattern. -/
def isIdentChar (c : Char) : Bool := c.isAlphanum || c == '_'

/-- `[a-zA-Z_][a-zA-Z0-9_]*`: greedy longest match. -/
def matchIdent : List Char → Option (List Char × List Char)
  | [] => none
  | c :: cs =>
    if isIdentStart c then some (c :: cs.takeWhile isIdentChar, cs.dropWhile isIdentChar)
    else none

/-- Split a greedy run of decimal digits off the front. -/
def takeDigits (s : List Char) : List Char × List Char :=
  (s.takeWhile Char.isDigit, s.dropWhile Char.isDigit)

/-- `\d*\.?\d+` with the regex engine's greedy backtracking: digits, an
optional dot that must be followed by at least one digit (otherwise the
dot is given back), at least one digit overall. -/
def matchMantissa (s : List Char) : Option (List Char × List Char) :=
  let (d1, r1) := takeDigits s
  match r1 with
  | '.' :: r2 =>
    let (d2, r3) := takeDigits r2
    if d2 ≠ [] then some (d1 ++ '.' :: d2, r3)
    else if d1 ≠ [] then some (d1, r1)
    else none
  | _ => if d1 ≠ [] then some (d1, r1) else none

/-- `([eE][-+]?\d+)?`: an optional exponent group; if the digits are missing
the whole group matches empty (consuming nothing). -/
def matchExponent (s : List Char) : List Char × List Char :=
  match s with
  | e :: rest =>
    if e == 'e' || e == 'E' then
      match rest with
      | sg :: rest2 =>
        if sg == '+' || sg == '-' then
          let (d, r) := takeDigits rest2
          if d ≠ [] then (e :: sg :: d, r) else ([], s)
        else
          let (d, r) := takeDigits rest
          if d ≠ [] then (e :: d, r) else ([], s)
      | [] => ([], s)
    else ([], s)
  | [] => ([], s)

/-- `[-+]?\d*\.?\d+([eE][-+]?\d+)?`: the full Number pattern. -/
def matchNumber (s : List Char) : Option (List Char × List Char) :=
  match s with
  | c :: rest =>
    if c == '-' || c == '+' then
      match matchMantissa rest with
      | some (m, r) =>
        let (ex, r2) := matchExponent r
        some (c :: m ++ ex, r2)
      | none => none
    else
      match matchMantissa s with
      | some (m, r) =>
        let (ex, r2) := matchExponent r
        some (m ++ ex, r2)
      | none => none
  | [] => none

/-- The single-quote character. -/
def singleQuote : Char := Char.ofNat 39

/-- The double-quote character. -/
def doubleQuote : Char := Char.ofNat 34

/-- Match one quote-delimited literal `q[^q]*q` for delimiter `q`. -/
def matchQuoted (q : Char) : List Char → Option (List Char × List Char)
  | [] => none
  | c :: cs =>
    if c = q then
      match cs.dropWhile (fun d => !(d == q)) with
      | c2 :: rest => some (c :: (cs.takeWhile (fun d => !(d == q)) ++ [c2]), rest)
      | [] => none
    else none

/-- `'[^']*'|"[^"]*"`: single- or double-quoted string literal. -/
def matchStringLit (s : List Char) : Option (List Char × List Char) :=
  match matchQuoted singleQuote s with
  | some r => some r
  | none => matchQuoted doubleQuote s

/-- `!=|<=|>=|==|[()<>]`: the two-character operators take priority (they
appear first in the alternation), then the single characters. -/
def matchCompareOp : List Char → Option (List Char × List Char)
  | c1 :: c2 :: rest =>
    if (c1 == '!' || c1 == '<' || c1 == '>' || c1 == '=') && c2 == '=' then
      some ([c1, c2], rest)
    else if c1 == '(' || c1 == ')' || c1 == '<' || c1 == '>' then
      some ([c1], c2 :: rest)
    else none
  | [c1] =>
    if c1 == '(' || c1 == ')' || c1 == '<' || c1 == '>' then some ([c1], [])
    else none
  | [] => none

/-- Token kinds: the named capture groups of `myLexer`. -/
inductive TokKind where
  | logicOp | booleanLit | ident | numberLit | stringLit | compareOp
deriving DecidableEq, Repr

/-- A lexed token: kind, text (for string literals the unquoted content,
per `participle.Unquote("String")`; raw matched text otherwise), and the
position where it starts. -/
structure Token where
  kind : TokKind
  text : String
  pos : Pos
deriving DecidableEq, Repr

/-- Result of one lexer step: the classified kind (`none` for the elided
whitespace group), the consumed characters, and the remaining input. -/
structure MatchRes where
  kind : Option TokKind
  consumed : List Char
  rest : List Char
deriving DecidableEq, Repr

/-- One step of the lexer: try the alternatives of `myLexer` in source
order at the current position; `none` means no pattern matches (LexError). -/
def scanOne (s : List Char) : Option MatchRes :=
  let ws := s.takeWhile isSpaceChar
  if ws ≠ [] then some ⟨none, ws, s.dropWhile isSpaceChar⟩
  else
    match matchLogicOp s with
    | some (m, r) => some ⟨some .logicOp, m, r⟩
    | none =>
      match matchBooleanLit s with
      | some (m, r) => some ⟨some .booleanLit, m, r⟩
      | none =>
        match matchIdent s with
        | some (m, r) => some ⟨some .ident, m, r⟩
        | none =>
          match matchNumber s with
          | some (m, r) => some ⟨some .numberLit, m, r⟩
          | none =>
            match matchStringLit s with
            | some (m, r) => some ⟨some .stringLit, m, r⟩
            | none =>
              match matchCompareOp s with
              | some (m, r) => some ⟨some .compareOp, m, r⟩
              | none => none

/-- Advance a source position over one character. -/
def advancePos (p : Pos) (c : Char) : Pos :=
  if c = '\n' then ⟨p.line + 1, 1⟩ else ⟨p.line, p.column + 1⟩

/-- Advance a source position over a character run. -/
def advancePosList (p : Pos) (cs : List Char) : Pos := cs.foldl advancePos p

/-- The token text recorded for a match: string literals are stored without
their delimiters (`participle.Unquote("String")`); everything else keeps
the raw matched text. -/
def tokenText (k : TokKind) (consumed : List Char) : String :=
  match k with
  | .stringLit => String.mk ((consumed.drop 1).dropLast)
  | _ => String.mk consumed

/-- The lexer loop: repeatedly scan one token until the input is exhausted.
The fuel argument only bounds the recursion (each step consumes at least
one character, so `length + 1` fuel never runs out). -/
def tokenizeLoop : Nat → List Char → Pos → Except String (List Token)
  | _, [], _ => .ok []
  | 0, _ :: _, _ => .error "lexer: out of fuel"
  | fuel + 1, s, p =>
    match scanOne s with
    | none => .error ("invalid token at line " ++ toString p.line)
    | some res =>
      let p2 := advancePosList p res.consumed
      match res.kind with
      | none => tokenizeLoop fuel res.rest p2
      | some k =>
        match tokenizeLoop fuel res.rest p2 with
        | .ok toks => .ok (⟨k, tokenText k res.consumed, p⟩ :: toks)
        | .error e => .error e

/-- Tokenize a source string (start position line 1, column 1). -/
def tokenize (src : String) : Except String (List Token) :=
  tokenizeLoop (src.length + 1) src.data ⟨1, 1⟩

/-!
Grammar parser.  The Go program builds the AST through the participle
library from the struct annotations in `parser.go`:
`Expression := OrCondition ("OR" OrCondition)*`,
`OrCondition := ConditionOperand ("AND" ConditionOperand)*`,
`ConditionOperand := Term [CompareOp Term]`,
`Term := Value | Ident | "(" Expression ")"`,
`Value := Number | String | Boolean`,
with `participle.CaseInsensitive("LogicOp", "Boolean")` making literal
matching against tokens of those two kinds case-insensitive, and node
positions taken from the first token of each node.  The functions below
are that grammar as a recursive-descent parser; the fuel argument is a
termination artifact only (the starting fuel is always sufficient).
-/

/-- Value of a digit run read as a decimal natural. -/
def digitsToNat (ds : List Char) : Nat :=
  ds.foldl (fun a c => a * 10 + (c.toNat - 48)) 0

/-- Split an optional leading sign off a character list. -/
def parseSign : List Char → Int × List Char
  | '-' :: r => (-1, r)
  | '+' :: r => (1, r)
  | s => (1, s)

/-- Exact rational value of a Number token's text (optional sign, integer
digits, optional fraction, optional exponent), mirroring the decimal value
`strconv.ParseFloat` reads (rounding to `float64` is outside the model). -/
def ratOfNumberText (text : String) : Rat :=
  let (sg, s1) := parseSign text.data
  let (ip, s2) := takeDigits s1
  let (fp, s3) :=
    match s2 with
    | '.' :: r => takeDigits r
    | _ => ([], s2)
  let ex : Int :=
    match s3 with
    | 'e' :: r =>
      let (esg, r2) := parseSign r
      esg * (digitsToNat (r2.takeWhile Char.isDigit) : Int)
    | 'E' :: r =>
      let (esg, r2) := parseSign r
      esg * (digitsToNat (r2.takeWhile Char.isDigit) : Int)
    | _ => 0
  let mant : Int := sg * ((digitsToNat ip * 10 ^ fp.length + digitsToNat fp : Nat) : Int)
  let base : Rat := (mant : Rat) / ((10 : Rat) ^ fp.length)
  if 0 ≤ ex then base * (10 : Rat) ^ ex.toNat else base / (10 : Rat) ^ (-ex).toNat

/-- Characters of a string folded to lower case (ASCII case folding, as
`strings.ToLower` performs on the ASCII-only token texts involved). -/
def lowerChars (s : String) : List Char := s.data.map Char.toLower

/-- Literal matching in the grammar: a quoted literal `w` matches a token
whose text equals `w`, case-insensitively when the token's kind is one of
the `participle.CaseInsensitive` types (`LogicOp`, `Boolean`). -/
def litMatches (t : Token) (w : String) : Bool :=
  t.text = w ||
    ((t.kind == .logicOp || t.kind == .booleanLit) && lowerChars t.text = lowerChars w)

/-- Position of the next token (participle assigns each node the position
of its first token); a dummy is used at end of input, where every grammar
rule fails before using it. -/
def headPos : List Token → Pos
  | t :: _ => t.pos
  | [] => ⟨0, 0⟩

/-- The comparison operator literals, in the grammar's alternation order. -/
def compareOps : List String := ["<=", ">=", "==", "<", ">", "!="]

mutual

/-- `Expression := OrCondition ("OR" OrCondition)*`. -/
def parseExpr : Nat → List Token → Except String (Expression × List Token)
  | 0, _ => .error "parser: out of fuel"
  | fuel + 1, toks =>
    match parseOrCond fuel toks with
    | .error e => .error e
    | .ok (c0, rest) =>
      match parseExprTail fuel rest with
      | .error e => .error e
      | .ok (cs, rest2) => .ok (⟨headPos toks, c0 :: cs⟩, rest2)

/-- Zero or more `"OR" OrCondition` continuations. -/
def parseExprTail : Nat → List Token → Except String (List OrCondition × List Token)
  | 0, _ => .error "parser: out of fuel"
  | fuel + 1, toks =>
    match toks with
    | t :: rest =>
      if litMatches t "OR" then
        match parseOrCond fuel rest with
        | .error e => .error e
        | .ok (c, rest2) =>
          match parseExprTail fuel rest2 with
          | .error e => .error e
          | .ok (cs, rest3) => .ok (c :: cs, rest3)
      else .ok ([], toks)
    | [] => .ok ([], toks)

/-- `OrCondition := ConditionOperand ("AND" ConditionOperand)*`. -/
def parseOrCond : Nat → List Token → Except String (OrCondition × List Token)
  | 0, _ => .error "parser: out of fuel"
  | fuel + 1, toks =>
    match parseCondOperand fuel toks with
    | .error e => .error e
    | .ok (c0, rest) =>
      match parseOrCondTail fuel rest with
      | .error e => .error e
      | .ok (cs, rest2) => .ok (⟨headPos toks, c0 :: cs⟩, rest2)

/-- Zero or more `"AND" ConditionOperand` continuations. -/
def parseOrCondTail : Nat → List Token → Except String (List ConditionOperand × List Token)
  | 0, _ => .error "parser: out of fuel"
  | fuel + 1, toks =>
    match toks with
    | t :: rest =>
      if litMatches t "AND" then
        match parseCondOperand fuel rest with
        | .error e => .error e
        | .ok (c, rest2) =>
          match parseOrCondTail fuel rest2 with
          | .error e => .error e
          | .ok (cs, rest3) => .ok (c :: cs, rest3)
      else .ok ([], toks)
    | [] => .ok ([], toks)

/-- `ConditionOperand := Term [("<=" | ">=" | "==" | "<" | ">" | "!=") Term]`. -/
def parseCondOperand : Nat → List Token → Except String (ConditionOperand × List Token)
  | 0, _ => .error "parser: out of fuel"
  | fuel + 1, toks =>
    match parseTerm fuel toks with
    | .error e => .error e
    | .ok (tm, rest) =>
      match rest with
      | t :: rest2 =>
        match compareOps.find? (fun w => litMatches t w) with
        | some w =>
          match parseTerm fuel rest2 with
          | .error e => .error e
          | .ok (tm2, rest3) =>
            .ok (⟨headPos toks, tm, some ⟨t.pos, w, tm2⟩⟩, rest3)
        | none => .ok (⟨headPos toks, tm, none⟩, rest)
      | [] => .ok (⟨headPos toks, tm, none⟩, rest)

/-- `Term := Value | Ident | "(" Expression ")"` with
`Value := Number | String | Boolean`; the `Boolean` capture lowercases the
token text and compares with "true" (`Boolean.Capture` in `parser.go`). -/
def parseTerm : Nat → List Token → Except String (Term × List Token)
  | 0, _ => .error "parser: out of fuel"
  | fuel + 1, toks =>
    match toks with
    | [] => .error "unexpected end of input"
    | t :: rest =>
      match t.kind with
      | .numberLit => .ok (.value t.pos (.number t.pos (ratOfNumberText t.text)), rest)
      | .stringLit => .ok (.value t.pos (.str t.pos t.text), rest)
      | .booleanLit =>
        .ok (.value t.pos (.boolean t.pos (lowerChars t.text = ['t', 'r', 'u', 'e'])), rest)
      | .ident => .ok (.ident t.pos t.text, rest)
      | _ =>
        if litMatches t "(" then
          match parseExpr fuel rest with
          | .error e => .error e
          | .ok (e, rest2) =>
            match rest2 with
            | t2 :: rest3 =>
              if litMatches t2 ")" then .ok (.subExpr t.pos e, rest3)
              else .error "expected closing parenthesis"
            | [] => .error "expected closing parenthesis"
        else .error "unexpected token"

end

/-- `Parse` (`parser.go`): tokenize, run the grammar from the top rule, and
require all input consumed (trailing tokens are a syntax error). -/
def Parse (src : String) : Except String Expression :=
  match tokenize src with
  | .error e => .error e
  | .ok toks =>
    match parseExpr (8 * toks.length + 8) toks with
    | .error e => .error e
    | .ok (e, rest) =>
      match rest with
      | [] => .ok e
      | _ :: _ => .error "unexpected trailing input"

/-- Top-level error type of `Eval`: a parse (lex/syntax) error or an
evaluation error. -/
inductive TopErr where
  | parseError (msg : String)
  | evalError (e : EvalErr)
deriving DecidableEq, Repr

/-- `EvalParsed` (`parser.go`): wrap the object in a `Context`, evaluate the
tree, and apply `castToExternal` once to a successful result. -/
def EvalParsed (e : Expression) (obj : Option (String → Except String HostVal)) :
    Except EvalErr ExtVal :=
  match Expression.eval ⟨obj⟩ e with
  | .error err => .error err
  | .ok v => .ok (castToExternal v)

/-- `Eval` (`parser.go`): the empty input returns `nil, nil` before the
parser is ever invoked; otherwise parse then evaluate. -/
def Eval (src : String) (obj : Option (String → Except String HostVal)) :
    Except TopErr ExtVal :=
  if src.length = 0 then .ok .eNull
  else
    match Parse src with
    | .error e => .error (.parseError e)
    | .ok e =>
      match EvalParsed e obj with
      | .error err => .error (.evalError err)
      | .ok v => .ok v

/-!
Spec-side reference definitions and helper lemmas.
-/

/-- Reference definition following the spec's wording of the N-ary OR fold
(§4.3): iterate the remaining children left to right; at each step
evaluate the child, require both the running `lhs` and the fresh value to
be boolean (a type error at the node's position otherwise), compute the
fold, and if the pre-fold `lhs` was already true stop — returning the fold
of the children evaluated so far — leaving later children unevaluated. -/
def orFoldSpec (ctx : Context) (pos : Pos) : IVal → List OrCondition → Except EvalErr IVal
  | lhs, [] => .ok lhs
  | lhs, c :: rest =>
    match OrCondition.eval ctx c with
    | .error e => .error (.wrapErr pos e)
    | .ok v =>
      match lhs, v with
      | .bool lb, .bool rb =>
        if lb then .ok (.bool (lb || rb))
        else orFoldSpec ctx pos (.bool (lb || rb)) rest
      | .bool _, _ => .error (.wrapErr pos (.plainErr "rhs must be boolean"))
      | _, _ => .error (.wrapErr pos (.plainErr "lhs must be boolean"))

/-- Reference definition of the N-ary AND fold per the spec (§4.3), the
OR fold with the roles of `true` and `false` swapped. -/
def andFoldSpec (ctx : Context) (pos : Pos) : IVal → List ConditionOperand → Except EvalErr IVal
  | lhs, [] => .ok lhs
  | lhs, c :: rest =>
    match ConditionOperand.eval ctx c with
    | .error e => .error (.wrapErr pos e)
    | .ok v =>
      match lhs, v with
      | .bool lb, .bool rb =>
        if !lb then .ok (.bool (lb && rb))
        else andFoldSpec ctx pos (.bool (lb && rb)) rest
      | .bool _, _ => .error (.wrapErr pos (.plainErr "rhs must be boolean"))
      | _, _ => .error (.wrapErr pos (.plainErr "lhs must be boolean"))

theorem asBooleans_bool_bool (lb rb : Bool) :
    asBooleans (.bool lb) (.bool rb) = .ok (lb, rb) := rfl

theorem asBooleans_lhs_not_bool (lhs rhs : IVal) (h : lhs.variant ≠ .vBool) :
    asBooleans lhs rhs = .error (.plainErr "lhs must be boolean") := by
  cases lhs <;> simp_all [asBooleans, IVal.variant]

/-- The Go loop body of `Expression.Eval` agrees with the spec's fold. -/
theorem orLoop_eq_orFoldSpec (ctx : Context) (pos : Pos) (lhs : IVal)
    (cs : List OrCondition) : orLoop ctx pos lhs cs = orFoldSpec ctx pos lhs cs := by
  induction cs generalizing lhs with
  | nil => rfl
  | cons c rest ih =>
    simp only [orLoop, orFoldSpec, orStep]
    cases OrCondition.eval ctx c with
    | error e => rfl
    | ok v =>
      cases lhs <;> cases v <;> first
        | rfl
        | (rename_i lb rb
           cases lb <;> simp [asBooleans, ih])

/-- The Go loop body of `OrCondition.Eval` agrees with the spec's fold. -/
theorem andLoop_eq_andFoldSpec (ctx : Context) (pos : Pos) (lhs : IVal)
    (cs : List ConditionOperand) : andLoop ctx pos lhs cs = andFoldSpec ctx pos lhs cs := by
  induction cs generalizing lhs with
  | nil => rfl
  | cons c rest ih =>
    simp only [andLoop, andFoldSpec, andStep]
    cases ConditionOperand.eval ctx c with
    | error e => rfl
    | ok v =>
      cases lhs <;> cases v <;> first
        | rfl
        | (rename_i lb rb
           cases lb <;> simp [asBooleans, ih])

/-!
Claims.
-/

/-- C1: for an Expression (resp. OrCondition) with three or more children,
evaluation after the first child is exactly the left-to-right fold of the
spec: each step evaluates the next child, requires both the running lhs
and the fresh value to be boolean (type error otherwise), stops exactly
when the pre-fold lhs is already true (OR) / false (AND) — the stopping
step's child having already been evaluated — and returns the fold of the
evaluated children. -/
theorem nary_fold_left_to_right (ctx : Context) (pos : Pos)
    (c1 c2 c3 : OrCondition) (cs : List OrCondition)
    (d1 d2 d3 : ConditionOperand) (ds : List ConditionOperand) :
    Expression.eval ctx (.mk pos (c1 :: c2 :: c3 :: cs)) =
      (match OrCondition.eval ctx c1 with
       | .error e => .error e
       | .ok lhs => orFoldSpec ctx pos lhs (c2 :: c3 :: cs)) ∧
    OrCondition.eval ctx (.mk pos (d1 :: d2 :: d3 :: ds)) =
      (match ConditionOperand.eval ctx d1 with
       | .error e => .error e
       | .ok lhs => andFoldSpec ctx pos lhs (d2 :: d3 :: ds)) := by
  constructor
  · simp only [Expression.eval]
    cases OrCondition.eval ctx c1 with
    | error e => rfl
    | ok lhs => simp [Except.bind, orLoop_eq_orFoldSpec]
  · simp only [OrCondition.eval]
    cases ConditionOperand.eval ctx d1 with
    | error e => rfl
    | ok lhs => simp [Except.bind, andLoop_eq_andFoldSpec]

/-- C2: with exactly two children, a boolean-true first child (OR), resp. a
boolean-false first child (AND), is returned immediately; the second child
is never evaluated — the result holds for every second child, including
ill-typed or unresolvable ones. -/
theorem two_operand_short_circuit (ctx : Context) (pos : Pos) :
    (∀ (c1 c2 : OrCondition), OrCondition.eval ctx c1 = .ok (.bool true) →
      Expression.eval ctx (.mk pos [c1, c2]) = .ok (.bool true)) ∧
    (∀ (d1 d2 : ConditionOperand), ConditionOperand.eval ctx d1 = .ok (.bool false) →
      OrCondition.eval ctx (.mk pos [d1, d2]) = .ok (.bool false)) := by
  constructor
  · intro c1 c2 h
    simp only [Expression.eval]
    rw [h]
    simp [Except.bind]
  · intro d1 d2 h
    simp only [OrCondition.eval]
    rw [h]
    simp [Except.bind]

/-- Witness for C2: `true OR "String"` at the AST level — the second
operand is a string literal, yet the result is boolean true with no error
(the Go test "Short-circuit OR evaluation"); similarly `false AND 123`. -/
theorem two_operand_short_circuit_witness :
    Expression.eval ⟨none⟩
      (.mk ⟨1, 1⟩ [.mk ⟨1, 1⟩ [.mk ⟨1, 1⟩ (.value ⟨1, 1⟩ (.boolean ⟨1, 1⟩ true)) none],
        .mk ⟨1, 9⟩ [.mk ⟨1, 9⟩ (.value ⟨1, 9⟩ (.str ⟨1, 9⟩ "String")) none]]) = .ok (.bool true) ∧
    OrCondition.eval ⟨none⟩
      (.mk ⟨1, 1⟩ [.mk ⟨1, 1⟩ (.value ⟨1, 1⟩ (.boolean ⟨1, 1⟩ false)) none,
        .mk ⟨1, 11⟩ (.value ⟨1, 11⟩ (.number ⟨1, 11⟩ 123)) none]) = .ok (.bool false) :=
  ⟨(two_operand_short_circuit ⟨none⟩ ⟨1, 1⟩).1 _ _ rfl,
   (two_operand_short_circuit ⟨none⟩ ⟨1, 1⟩).2 _ _ rfl⟩

/-- C3: number-vs-number comparisons follow the standard ordering and
equality of the numeric payloads for each of the six operators, and
string-vs-string comparisons follow lexicographic string ordering, with
the boolean result wrapped as the internal Boolean. -/
theorem compare_standard_orderings (ctx : Context) (pos : Pos) :
    (∀ (t : Term) (a b : Rat), Term.eval ctx t = .ok (.num b) →
      Compare.eval ctx (.num a) (.mk pos "==" t) = .ok (.bool (decide (a = b))) ∧
      Compare.eval ctx (.num a) (.mk pos "!=" t) = .ok (.bool (decide (a ≠ b))) ∧
      Compare.eval ctx (.num a) (.mk pos "<" t) = .ok (.bool (decide (a < b))) ∧
      Compare.eval ctx (.num a) (.mk pos ">" t) = .ok (.bool (decide (a > b))) ∧
      Compare.eval ctx (.num a) (.mk pos "<=" t) = .ok (.bool (decide (a ≤ b))) ∧
      Compare.eval ctx (.num a) (.mk pos ">=" t) = .ok (.bool (decide (a ≥ b)))) ∧
    (∀ (t : Term) (s u : String), Term.eval ctx t = .ok (.str u) →
      Compare.eval ctx (.str s) (.mk pos "==" t) = .ok (.bool (decide (s = u))) ∧
      Compare.eval ctx (.str s) (.mk pos "!=" t) = .ok (.bool (decide (s ≠ u))) ∧
      Compare.eval ctx (.str s) (.mk pos "<" t) = .ok (.bool (decide (s < u))) ∧
      Compare.eval ctx (.str s) (.mk pos ">" t) = .ok (.bool (decide (s > u))) ∧
      Compare.eval ctx (.str s) (.mk pos "<=" t) = .ok (.bool (decide (s ≤ u))) ∧
      Compare.eval ctx (.str s) (.mk pos ">=" t) = .ok (.bool (decide (s ≥ u)))) := by
  constructor
  · intro t a b h
    simp only [Compare.eval]
    rw [h]
    refine ⟨rfl, rfl, rfl, rfl, rfl, rfl⟩
  · intro t s u h
    simp only [Compare.eval]
    rw [h]
    refine ⟨rfl, rfl, rfl, rfl, rfl, rfl⟩

/-- Witness for C3: `1 < 2` on numbers and `"a" < "bcd"` on strings, via
number/string literal right operands. -/
theorem compare_standard_orderings_witness :
    Compare.eval ⟨none⟩ (.num 1) (.mk ⟨1, 1⟩ "<" (.value ⟨1, 5⟩ (.number ⟨1, 5⟩ 2))) =
      .ok (.bool true) ∧
    Compare.eval ⟨none⟩ (.str "a") (.mk ⟨1, 1⟩ "<" (.value ⟨1, 7⟩ (.str ⟨1, 7⟩ "bcd"))) =
      .ok (.bool true) := by
  constructor
  · have h := ((compare_standard_orderings ⟨none⟩ ⟨1, 1⟩).1
      (.value ⟨1, 5⟩ (.number ⟨1, 5⟩ 2)) 1 2 rfl).2.2.1
    rw [h]
    norm_num
  · have h := ((compare_standard_orderings ⟨none⟩ ⟨1, 1⟩).2
      (.value ⟨1, 7⟩ (.str ⟨1, 7⟩ "bcd")) "a" "bcd" rfl).2.2.1
    rw [h]
    simp [String.lt_iff_toList_lt]
    decide

/-- Whether a comparison operator is an ordering (not an equality) one. -/
def isOrderingOp (op : String) : Bool :=
  (["<", ">", "<=", ">="] : List String).contains op

/-- C4: with the right-hand term evaluating to `rhs` and a genuine
comparison operator, `Compare.Eval` fails — with a type error carrying the
Compare's position — exactly when the right operand's variant differs from
the left's, or both operands are booleans under an ordering operator, or
the left operand is not a number, string, or boolean (nil and opaque
values included); in particular mixed-type comparisons never coerce. -/
theorem compare_type_error_cases (ctx : Context) (pos : Pos) (t : Term) (op : String)
    (lhs rhs : IVal) (hr : Term.eval ctx t = .ok rhs) (hop : op ∈ compareOps) :
    (∃ msg, Compare.eval ctx lhs (.mk pos op t) = .error (.typeErr pos msg)) ↔
      (rhs.variant ≠ lhs.variant ∨
       (lhs.variant = .vBool ∧ isOrderingOp op = true) ∨
       (lhs.variant ≠ .vNum ∧ lhs.variant ≠ .vStr ∧ lhs.variant ≠ .vBool)) := by
  simp only [Compare.eval]
  rw [hr]
  simp only [compareOps, List.mem_cons, List.not_mem_nil, or_false] at hop
  rcases hop with rfl | rfl | rfl | rfl | rfl | rfl <;>
    cases lhs <;> cases rhs <;>
      simp [compareValues, Except.bind, IVal.variant, isOrderingOp]

/-- Witness for C4: ordering booleans (`true < false`) is a type error. -/
theorem compare_type_error_cases_witness :
    ∃ msg, Compare.eval ⟨none⟩ (.bool true)
      (.mk ⟨1, 1⟩ "<" (.value ⟨1, 8⟩ (.boolean ⟨1, 8⟩ false))) =
        .error (.typeErr ⟨1, 1⟩ msg) := by
  refine (compare_type_error_cases ⟨none⟩ ⟨1, 1⟩ (.value ⟨1, 8⟩ (.boolean ⟨1, 8⟩ false)) "<"
    (.bool true) (.bool false) rfl (by decide)).mpr ?_
  simp [IVal.variant, isOrderingOp]

/-- C5: evaluating an identifier term with no context object fails with the
context error naming the identifier and its position; with a context whose
resolver fails, it fails with the identifier error wrapping the cause at
the term's position; with a successful resolution, the raw host value goes
through `castToInternal` before use. -/
theorem identifier_resolution (pos : Pos) (name : String) :
    (Term.eval ⟨none⟩ (.ident pos name) = .error (.contextErr pos name)) ∧
    (∀ (f : String → Except String HostVal) (msg : String), f name = .error msg →
      Term.eval ⟨some f⟩ (.ident pos name) = .error (.identErr pos msg)) ∧
    (∀ (f : String → Except String HostVal) (v : HostVal), f name = .ok v →
      Term.eval ⟨some f⟩ (.ident pos name) = .ok (castToInternal v)) := by
  refine ⟨rfl, fun f msg h => ?_, fun f v h => ?_⟩ <;>
    simp [Term.eval, resolveIdent, h]

/-- Witness for C5: the test harness resolver (`gender`/`age` known,
anything else "Invalid identifier"), exercising both the failure and the
success paths of identifier resolution. -/
theorem identifier_resolution_witness :
    Term.eval ⟨some (fun n => if n = "gender" then .ok (.hString "male")
        else .error "Invalid identifier")⟩ (.ident ⟨1, 1⟩ "gender") = .ok (.str "male") ∧
    Term.eval ⟨some (fun n => if n = "gender" then .ok (.hString "male")
        else .error "Invalid identifier")⟩ (.ident ⟨1, 1⟩ "height") =
      .error (.identErr ⟨1, 1⟩ "Invalid identifier") :=
  ⟨(identifier_resolution ⟨1, 1⟩ "gender").2.2 _ (.hString "male") rfl,
   (identifier_resolution ⟨1, 1⟩ "height").2.1 _ "Invalid identifier" rfl⟩

/-- C6: the empty input text evaluates to "no value" for every context
(including none) — the parser is never consulted: it would in fact reject
the empty token stream, as the third conjunct shows — and an Expression
node with zero OR children likewise evaluates to "no value", not an
error. -/
theorem empty_input_no_value :
    (∀ obj, Eval "" obj = .ok .eNull) ∧
    (∀ (ctx : Context) (pos : Pos), Expression.eval ctx (.mk pos []) = .ok .null) ∧
    (∃ msg, Parse "" = .error msg) :=
  ⟨fun _ => rfl, fun _ _ => rfl, ⟨"unexpected end of input", rfl⟩⟩

/-- C7: AND binds tighter than OR and parentheses override precedence:
`false OR true AND true` → true, `true AND true OR false` → true, and
`false AND (true OR false)` → false, through the whole
tokenize/parse/evaluate pipeline. -/
theorem precedence_and_parentheses :
    Eval "false OR true AND true" none = .ok (.eBool true) ∧
    Eval "true AND true OR false" none = .ok (.eBool true) ∧
    Eval "false AND (true OR false)" none = .ok (.eBool false) :=
  ⟨rfl, rfl, rfl⟩

/-- All case variants of a (lowercase) word's characters. -/
def caseVariants : List Char → List (List Char)
  | [] => [[]]
  | c :: cs =>
    (caseVariants cs).foldr (fun t acc => (c.toLower :: t) :: (c.toUpper :: t) :: acc) []

theorem identStart_not_space (c : Char) (h : isIdentStart c = true) :
    isSpaceChar c = false := by
  by_contra hs
  rw [Bool.not_eq_false] at hs
  simp only [isSpaceChar, Bool.or_eq_true, beq_iff_eq] at hs
  rcases hs with (((rfl | rfl) | rfl) | rfl) | rfl <;> exact absurd h (by decide)

/-- C8: every casing of `and`/`or` scans as one LogicOp token and every
casing of `true`/`false` as one Boolean token — although each of these
strings is also a complete match for the identifier pattern, which the
earlier keyword alternatives take priority over — while at any position
where no keyword alternative matches, an identifier-starting character
(leading alphabetic or underscore) yields an Ident token of exactly the
conventional shape, its text preserved character for character
(case-sensitive). -/
theorem tokenizer_keywords_and_identifiers :
    (∀ s ∈ caseVariants ['a', 'n', 'd'] ++ caseVariants ['o', 'r'],
      matchIdent s = some (s, []) ∧ scanOne s = some ⟨some .logicOp, s, []⟩) ∧
    (∀ s ∈ caseVariants ['t', 'r', 'u', 'e'] ++ caseVariants ['f', 'a', 'l', 's', 'e'],
      matchIdent s = some (s, []) ∧ scanOne s = some ⟨some .booleanLit, s, []⟩) ∧
    (∀ (c : Char) (cs : List Char), isIdentStart c = true →
      matchLogicOp (c :: cs) = none → matchBooleanLit (c :: cs) = none →
      scanOne (c :: cs) =
        some ⟨some .ident, c :: cs.takeWhile isIdentChar, cs.dropWhile isIdentChar⟩) := by
  refine ⟨by decide, by decide, ?_⟩
  intro c cs hstart hlo hbo
  have hsp : isSpaceChar c = false := identStart_not_space c hstart
  simp [scanOne, List.takeWhile_cons, hsp, hlo, hbo, matchIdent, hstart]

/-- Witness for C8: `aNd` is a LogicOp, `TRUE` a Boolean literal, and
`gender` (no keyword matches at its head) an identifier with its exact
text. -/
theorem tokenizer_keywords_and_identifiers_witness :
    scanOne ['a', 'N', 'd'] = some ⟨some .logicOp, ['a', 'N', 'd'], []⟩ ∧
    scanOne ['T', 'R', 'U', 'E'] = some ⟨some .booleanLit, ['T', 'R', 'U', 'E'], []⟩ ∧
    scanOne ['g', 'e', 'n', 'd', 'e', 'r'] =
      some ⟨some .ident, ['g', 'e', 'n', 'd', 'e', 'r'], []⟩ :=
  ⟨(tokenizer_keywords_and_identifiers.1 ['a', 'N', 'd'] (by decide)).2,
   (tokenizer_keywords_and_identifiers.2.1 ['T', 'R', 'U', 'E'] (by decide)).2,
   tokenizer_keywords_and_identifiers.2.2 'g' ['e', 'n', 'd', 'e', 'r']
     (by decide) (by decide) (by decide)⟩

/-- C9: ingestion maps host booleans to the internal Boolean, every host
numeric type (all signed and unsigned integer widths, both float widths)
to the internal Number, leaves host strings as Text, and passes nil and
any other host value through opaquely; externalization — applied exactly
once at the end of a top-level evaluation, as the last conjunct states —
unwraps the internal Boolean to a plain boolean, passes Number and Text
through unchanged, and maps "no value" to the explicit null result. -/
theorem coercion_layers :
    (∀ b, castToInternal (.hBool b) = .bool b) ∧
    (∀ i : Int,
      castToInternal (.hInt i) = .num (i : Rat) ∧
      castToInternal (.hInt8 i) = .num (i : Rat) ∧
      castToInternal (.hInt16 i) = .num (i : Rat) ∧
      castToInternal (.hInt32 i) = .num (i : Rat) ∧
      castToInternal (.hInt64 i) = .num (i : Rat)) ∧
    (∀ n : Nat,
      castToInternal (.hUInt n) = .num (n : Rat) ∧
      castToInternal (.hUInt8 n) = .num (n : Rat) ∧
      castToInternal (.hUInt16 n) = .num (n : Rat) ∧
      castToInternal (.hUInt32 n) = .num (n : Rat) ∧
      castToInternal (.hUInt64 n) = .num (n : Rat)) ∧
    (∀ q : Rat, castToInternal (.hFloat32 q) = .num q ∧ castToInternal (.hFloat64 q) = .num q) ∧
    (∀ s, castToInternal (.hString s) = .str s) ∧
    (castToInternal .hNil = .null) ∧
    (∀ tag, castToInternal (.hForeign tag) = .foreign tag) ∧
    (∀ b, castToExternal (.bool b) = .eBool b) ∧
    (∀ q, castToExternal (.num q) = .eNum q) ∧
    (∀ s, castToExternal (.str s) = .eStr s) ∧
    (castToExternal .null = .eNull) ∧
    (∀ (e : Expression) obj, EvalParsed e obj = (Expression.eval ⟨obj⟩ e).map castToExternal) := by
  refine ⟨fun _ => rfl, fun _ => ⟨rfl, rfl, rfl, rfl, rfl⟩, fun _ => ⟨rfl, rfl, rfl, rfl, rfl⟩,
    fun _ => ⟨rfl, rfl⟩, fun _ => rfl, rfl, fun _ => rfl, fun _ => rfl, fun _ => rfl,
    fun _ => rfl, rfl, fun e obj => ?_⟩
  simp only [EvalParsed]
  cases Expression.eval ⟨obj⟩ e <;> rfl

/-- C10: in every step of the N-ary fold loops the right-hand child is
fully evaluated before the running left value's boolean check: a failing
child's error is the one reported (wrapped at the node's position), even
when the running left value is not boolean; a non-boolean left value does
not prevent the child's evaluation and surfaces only afterwards as the
"lhs must be boolean" type error; and the same holds for the two-child
case whenever the two-operand short-circuit does not trigger. -/
theorem rhs_evaluated_before_lhs_check (ctx : Context) (pos : Pos) :
    (∀ (lhs : IVal) (c : OrCondition) (rest : List OrCondition) (e : EvalErr),
      OrCondition.eval ctx c = .error e →
      orLoop ctx pos lhs (c :: rest) = .error (.wrapErr pos e)) ∧
    (∀ (lhs : IVal) (c : OrCondition) (rest : List OrCondition) (rhs : IVal),
      lhs.variant ≠ .vBool → OrCondition.eval ctx c = .ok rhs →
      orLoop ctx pos lhs (c :: rest) =
        .error (.wrapErr pos (.plainErr "lhs must be boolean"))) ∧
    (∀ (lhs : IVal) (d : ConditionOperand) (rest : List ConditionOperand) (e : EvalErr),
      ConditionOperand.eval ctx d = .error e →
      andLoop ctx pos lhs (d :: rest) = .error (.wrapErr pos e)) ∧
    (∀ (lhs : IVal) (d : ConditionOperand) (rest : List ConditionOperand) (rhs : IVal),
      lhs.variant ≠ .vBool → ConditionOperand.eval ctx d = .ok rhs →
      andLoop ctx pos lhs (d :: rest) =
        .error (.wrapErr pos (.plainErr "lhs must be boolean"))) ∧
    (∀ (c1 c2 : OrCondition) (v : IVal) (e : EvalErr),
      OrCondition.eval ctx c1 = .ok v → v ≠ .bool true →
      OrCondition.eval ctx c2 = .error e →
      Expression.eval ctx (.mk pos [c1, c2]) = .error (.wrapErr pos e)) ∧
    (∀ (d1 d2 : ConditionOperand) (v : IVal) (e : EvalErr),
      ConditionOperand.eval ctx d1 = .ok v → v ≠ .bool false →
      ConditionOperand.eval ctx d2 = .error e →
      OrCondition.eval ctx (.mk pos [d1, d2]) = .error (.wrapErr pos e)) := by
  refine ⟨fun lhs c rest e h => ?_, fun lhs c rest rhs hv h => ?_,
    fun lhs d rest e h => ?_, fun lhs d rest rhs hv h => ?_,
    fun c1 c2 v e h1 hne h2 => ?_, fun d1 d2 v e h1 hne h2 => ?_⟩
  · simp [orLoop, orStep, h]
  · simp [orLoop, orStep, h, asBooleans_lhs_not_bool lhs rhs hv]
  · simp [andLoop, andStep, h]
  · simp [andLoop, andStep, h, asBooleans_lhs_not_bool lhs rhs hv]
  · simp only [Expression.eval]
    rw [h1]
    simp only [Except.bind, if_neg hne]
    simp [orLoop, orStep, h2]
  · simp only [OrCondition.eval]
    rw [h1]
    simp only [Except.bind, if_neg hne]
    simp [andLoop, andStep, h2]

/-- Witness for C10: with a numeric (non-boolean) running lhs and a child
that is an unresolvable identifier (no context), the identifier's context
error is the one reported, wrapped at the node's position — not the
"lhs must be boolean" type error. -/
theorem rhs_evaluated_before_lhs_check_witness :
    orLoop ⟨none⟩ ⟨1, 1⟩ (.num 1) [.mk ⟨1, 8⟩ [.mk ⟨1, 8⟩ (.ident ⟨1, 8⟩ "x") none]] =
      .error (.wrapErr ⟨1, 1⟩ (.contextErr ⟨1, 8⟩ "x")) :=
  (rhs_evaluated_before_lhs_check ⟨none⟩ ⟨1, 1⟩).1 (.num 1) _ [] _ rfl

end Exprcalc
